import Mathlib

/-!
Verification of the Scribe commit engine (core/hash.c, core/envelope.c,
core/merkle.c, storage/database.c, storage/repository.c,
commands/cmd_commit.c) against its specification.

Modelling conventions:

* Digests and byte strings are modelled symbolically by the inductive
  `SData`: SHA-256 is treated as a free (injective, collision-free)
  constructor, which is the standard idealization of a cryptographic
  hash.  The zero digest (`SCRIBE_ZERO_HASH`, 32 zero bytes) is its own
  constructor `hzero`.
* The canonical JSON serialization produced by `scribe_envelope_to_json`
  via yyjson is modelled by the `j*` constructors of `SData`: the writer
  emits keys in insertion order and omits absent values, so a document is
  faithfully represented by the ordered sequence of emitted fields.  The
  concrete characters the writer prints are irrelevant to every property
  proved here; only which fields are emitted, with which keys, in which
  order.  Hex encoding of a digest (`scribe_hash_to_hex`, fixed-width
  lowercase, injective, inverted by `scribe_hash_from_hex`) is
  represented by the digest itself inside a `jhex` field.
* C strings that may be NULL become `Option String`; a NULL
  `scribe_hash_t *` argument becomes an `Option SData`.
* Out-of-memory and SQLite driver failures are not modelled: every
  allocation succeeds in the model.  The SQLite schema constraints that
  the code does hit (primary-key uniqueness, NOT NULL, the CHECK on
  `changes.operation`) are modelled explicitly in `scribe_db_store_commit`.
* `time(NULL)` in `scribe_envelope_new` is passed in as a parameter.
-/

namespace Scribe

/-- Symbolic digests, byte strings, and serialized JSON documents.
`hzero` is the 32-zero-byte `SCRIBE_ZERO_HASH`; `hbytes` is
`scribe_hash_bytes` (plain SHA-256); `hleaf` is `scribe_hash_leaf`
(SHA-256 over `0x00 ∥ data`); `hcomb` is `scribe_hash_combine`
(SHA-256 over `0x01 ∥ left ∥ right`); `bytes` is a literal byte string.
The `j*` constructors encode a yyjson document as the ordered sequence
of its emitted fields (see the module header). -/
inductive SData where
  | hzero
  | hbytes (data : SData)
  | hleaf (data : SData)
  | hcomb (left right : SData)
  | bytes (s : String)
  | jnil
  | jstr (key value : String) (rest : SData)
  | jhex (key : String) (digest : SData) (rest : SData)
  | jint (key : String) (value : Int) (rest : SData)
  | jobj (key : String) (fields : SData) (rest : SData)
  | jarr (key : String) (items : SData) (rest : SData)
  | jitem (fields : SData) (rest : SData)
deriving DecidableEq, Repr

/-- Error codes from error.h (the kinds the modelled code paths can
produce). -/
inductive scribe_error_t where
  | SCRIBE_OK
  | SCRIBE_ERR_NOMEM
  | SCRIBE_ERR_INVALID_ARG
  | SCRIBE_ERR_NOT_FOUND
  | SCRIBE_ERR_NOT_A_REPO
  | SCRIBE_ERR_REPO_EXISTS
  | SCRIBE_ERR_REPO_CORRUPT
  | SCRIBE_ERR_IO
  | SCRIBE_ERR_DB
  | SCRIBE_ERR_OBJECT_MISSING
  | SCRIBE_ERR_HASH_MISMATCH
  | SCRIBE_ERR_CRYPTO
deriving DecidableEq, Repr

/-- core/hash.c `scribe_hash_is_zero` (on a non-NULL hash):
bytewise comparison with `SCRIBE_ZERO_HASH`. -/
def scribe_hash_is_zero (h : SData) : Bool :=
  h == SData.hzero

/-- core/hash.c `scribe_hash_equal` (on non-NULL hashes). -/
def scribe_hash_equal (a b : SData) : Bool :=
  a == b

/-- core/hash.c `scribe_hash_bytes`: SHA-256 of a byte string. -/
def scribe_hash_bytes (data : SData) : SData :=
  SData.hbytes data

/-- core/hash.c `scribe_hash_leaf`: SHA-256 of `0x00 ∥ data`. -/
def scribe_hash_leaf (data : SData) : SData :=
  SData.hleaf data

/-- core/hash.c `scribe_hash_combine`: SHA-256 of `0x01 ∥ left ∥ right`. -/
def scribe_hash_combine (left right : SData) : SData :=
  SData.hcomb left right

/-- core/envelope.h `scribe_author_t`. -/
structure scribe_author_t where
  id : Option String
  role : Option String
  email : Option String
deriving DecidableEq, Repr

/-- core/envelope.h `scribe_process_t`. -/
structure scribe_process_t where
  name : Option String
  version : Option String
  params : Option String
  source : Option String
deriving DecidableEq, Repr

/-- core/envelope.h `scribe_change_t`. -/
structure scribe_change_t where
  table_name : Option String
  operation : Option String
  primary_key : Option String
  before_hash : SData
  after_hash : SData
deriving DecidableEq, Repr

/-- core/envelope.h `scribe_envelope_t` (the capacity bookkeeping of the
growable `changes` array is dropped: a Lean list grows implicitly). -/
structure scribe_envelope_t where
  commit_id : SData
  parent_id : SData
  tree_hash : SData
  author : scribe_author_t
  process : scribe_process_t
  timestamp : Int
  message : Option String
  changes : List scribe_change_t
deriving DecidableEq, Repr

/-- core/envelope.c `scribe_envelope_new`: calloc zeroes every field;
`timestamp` is set from `time(NULL)`, passed here as `now`. -/
def scribe_envelope_new (now : Int) : scribe_envelope_t :=
  { commit_id := SData.hzero
    parent_id := SData.hzero
    tree_hash := SData.hzero
    author := { id := none, role := none, email := none }
    process := { name := none, version := none, params := none, source := none }
    timestamp := now
    message := none
    changes := [] }

/-- core/envelope.c `scribe_envelope_set_author`. -/
def scribe_envelope_set_author (env : scribe_envelope_t)
    (id role : Option String) : scribe_envelope_t :=
  { env with author := { env.author with id := id, role := role } }

/-- core/envelope.c `scribe_envelope_set_author_email`. -/
def scribe_envelope_set_author_email (env : scribe_envelope_t)
    (email : Option String) : scribe_envelope_t :=
  { env with author := { env.author with email := email } }

/-- core/envelope.c `scribe_envelope_set_process`. -/
def scribe_envelope_set_process (env : scribe_envelope_t)
    (name version params : Option String) : scribe_envelope_t :=
  { env with process := { env.process with name := name, version := version, params := params } }

/-- core/envelope.c `scribe_envelope_set_process_source`. -/
def scribe_envelope_set_process_source (env : scribe_envelope_t)
    (source : Option String) : scribe_envelope_t :=
  { env with process := { env.process with source := source } }

/-- core/envelope.c `scribe_envelope_set_parent`: a NULL parent pointer
resets `parent_id` to zero. -/
def scribe_envelope_set_parent (env : scribe_envelope_t)
    (parent : Option SData) : scribe_envelope_t :=
  { env with parent_id := parent.getD SData.hzero }

/-- core/envelope.c `scribe_envelope_set_message`. -/
def scribe_envelope_set_message (env : scribe_envelope_t)
    (message : Option String) : scribe_envelope_t :=
  { env with message := message }

/-- core/envelope.c `scribe_envelope_set_tree_hash`. -/
def scribe_envelope_set_tree_hash (env : scribe_envelope_t)
    (tree_hash : Option SData) : scribe_envelope_t :=
  { env with tree_hash := tree_hash.getD SData.hzero }

/-- core/envelope.c `scribe_envelope_add_change`: appends the change with
no validation of the operation string or of the digest pattern; NULL
digest pointers are stored as the zero digest (the slot is memset to
zero first). -/
def scribe_envelope_add_change (env : scribe_envelope_t)
    (table_name operation primary_key : Option String)
    (before_hash after_hash : Option SData) : scribe_envelope_t :=
  { env with changes := env.changes ++
      [{ table_name := table_name
         operation := operation
         primary_key := primary_key
         before_hash := before_hash.getD SData.hzero
         after_hash := after_hash.getD SData.hzero }] }

/-- Helper for `scribe_envelope_to_json`: a string field added only when
the C pointer is non-NULL (yyjson emits nothing for absent fields). -/
def jstr_opt (key : String) (v : Option String) (rest : SData) : SData :=
  match v with
  | some s => SData.jstr key s rest
  | none => rest

/-- Helper for `scribe_envelope_to_json`: a digest serialized as
lowercase hex, emitted only when it is non-zero. -/
def jhex_nonzero (key : String) (h : SData) (rest : SData) : SData :=
  if scribe_hash_is_zero h then rest else SData.jhex key h rest

/-- core/envelope.c `scribe_envelope_to_json`, per-change object:
`table`, `operation`, `pk`, then `before_hash`/`after_hash` (each
omitted when the digest is zero). -/
def change_json_fields (c : scribe_change_t) : SData :=
  jstr_opt "table" c.table_name
    (jstr_opt "operation" c.operation
      (jstr_opt "pk" c.primary_key
        (jhex_nonzero "before_hash" c.before_hash
          (jhex_nonzero "after_hash" c.after_hash SData.jnil))))

/-- core/envelope.c `scribe_envelope_to_json`, the `changes` array in
insertion order. -/
def changes_json : List scribe_change_t → SData
  | [] => SData.jnil
  | c :: rest => SData.jitem (change_json_fields c) (changes_json rest)

/-- core/envelope.c `scribe_envelope_to_json`: canonical serialization.
Key order: `commit_id`, `parent_id`, `tree_hash` (hex, omitted when
zero), `author` object (`id`, `role`, `email`), `process` object
(`name`, `version`, `params`, `source`), `timestamp`, `message`
(omitted when NULL), `changes` (omitted when the envelope has no
changes). -/
def scribe_envelope_to_json (env : scribe_envelope_t) : SData :=
  jhex_nonzero "commit_id" env.commit_id
    (jhex_nonzero "parent_id" env.parent_id
      (jhex_nonzero "tree_hash" env.tree_hash
        (SData.jobj "author"
          (jstr_opt "id" env.author.id
            (jstr_opt "role" env.author.role
              (jstr_opt "email" env.author.email SData.jnil)))
          (SData.jobj "process"
            (jstr_opt "name" env.process.name
              (jstr_opt "version" env.process.version
                (jstr_opt "params" env.process.params
                  (jstr_opt "source" env.process.source SData.jnil))))
            (SData.jint "timestamp" env.timestamp
              (jstr_opt "message" env.message
                (if env.changes.isEmpty then SData.jnil
                 else SData.jarr "changes" (changes_json env.changes) SData.jnil)))))))

/-- core/envelope.c `scribe_envelope_clone`: a fresh envelope (its
`time(NULL)` stamp is irrelevant — it is overwritten below), the three
digests copied, then every field replayed through the setters exactly as
the source does, and the changes re-added in order. -/
def scribe_envelope_clone (env : scribe_envelope_t) : scribe_envelope_t :=
  let c := scribe_envelope_new 0
  let c := { c with commit_id := env.commit_id
                    parent_id := env.parent_id
                    tree_hash := env.tree_hash }
  let c := scribe_envelope_set_author c env.author.id env.author.role
  let c := match env.author.email with
           | some e => scribe_envelope_set_author_email c (some e)
           | none => c
  let c := scribe_envelope_set_process c env.process.name env.process.version env.process.params
  let c := match env.process.source with
           | some s => scribe_envelope_set_process_source c (some s)
           | none => c
  let c := match env.message with
           | some m => scribe_envelope_set_message c (some m)
           | none => c
  let c := { c with timestamp := env.timestamp }
  env.changes.foldl
    (fun acc ch =>
      scribe_envelope_add_change acc ch.table_name ch.operation ch.primary_key
        (some ch.before_hash) (some ch.after_hash))
    c

/-- core/merkle.h `scribe_merkle_tree_t`.  Only the leaf hashes (in
insertion order), the `built` flag, and the root hash are observable by
the modelled operations; the node tree itself is never traversed by any
of them (in particular `scribe_merkle_proof_create` does not traverse
it — see below). -/
structure scribe_merkle_tree_t where
  leaves : List SData
  built : Bool
  root : Option SData
deriving DecidableEq, Repr

/-- core/merkle.c `scribe_merkle_tree_new`. -/
def scribe_merkle_tree_new : scribe_merkle_tree_t :=
  { leaves := [], built := false, root := none }

/-- core/merkle.c `scribe_merkle_add_hash`: a pre-computed digest is
stored directly as the leaf's hash — no `0x00` leaf prefix is applied.
The `field_name` is stored on the node but never enters any hash; it is
accepted and dropped here.  Fails with `INVALID_ARG` on a NULL hash or
after `build`. -/
def scribe_merkle_add_hash (t : scribe_merkle_tree_t)
    (field_name : Option String) (h : Option SData) :
    scribe_error_t × scribe_merkle_tree_t :=
  match field_name, h with
  | _, none => (.SCRIBE_ERR_INVALID_ARG, t)
  | _, some h =>
    if t.built then (.SCRIBE_ERR_INVALID_ARG, t)
    else (.SCRIBE_OK, { t with leaves := t.leaves ++ [h] })

/-- core/merkle.c `scribe_merkle_add_field`: raw bytes are hashed with
the `0x00` leaf prefix (`scribe_hash_leaf`) before being stored. -/
def scribe_merkle_add_field (t : scribe_merkle_tree_t)
    (field_name : Option String) (data : SData) :
    scribe_error_t × scribe_merkle_tree_t :=
  match field_name with
  | _ =>
    if t.built then (.SCRIBE_ERR_INVALID_ARG, t)
    else (.SCRIBE_OK, { t with leaves := t.leaves ++ [scribe_hash_leaf data] })

/-- core/merkle.c `scribe_merkle_build`, inner `for` loop over one
level: combine adjacent pairs; when the level has an odd count the last
node is paired with itself (`right_idx = left_idx`), giving
`hash_combine(x, x)`. -/
def merkle_level_up : List SData → List SData
  | [] => []
  | [x] => [scribe_hash_combine x x]
  | x :: y :: rest => scribe_hash_combine x y :: merkle_level_up rest

/-- core/merkle.c `scribe_merkle_build`, outer `while (level_size > 1)`
loop.  The loop halves the level each iteration, so `fuel` iterations
suffice whenever `fuel` is at least the starting length; `build` calls
it with the leaf count. -/
def merkle_build_levels : Nat → List SData → List SData
  | 0, l => l
  | Nat.succ n, l => if 2 ≤ l.length then merkle_build_levels n (merkle_level_up l) else l

/-- core/merkle.c `scribe_merkle_build`: zero leaves give a calloc-zeroed
root node (the zero digest); a single leaf becomes the root; otherwise
levels are folded bottom-up until one node remains.  Building an
already-built tree is an immediate `SCRIBE_OK`. -/
def scribe_merkle_build (t : scribe_merkle_tree_t) :
    scribe_error_t × scribe_merkle_tree_t :=
  if t.built then (.SCRIBE_OK, t)
  else if t.leaves.length = 0 then
    (.SCRIBE_OK, { t with built := true, root := some SData.hzero })
  else if t.leaves.length = 1 then
    (.SCRIBE_OK, { t with built := true, root := t.leaves.head? })
  else
    (.SCRIBE_OK,
      { t with
        built := true
        root := some ((merkle_build_levels t.leaves.length t.leaves).headD SData.hzero) })

/-- core/merkle.c `scribe_merkle_root`: NULL until the tree is built. -/
def scribe_merkle_root (t : scribe_merkle_tree_t) : Option SData :=
  t.root

/-- core/merkle.c `scribe_merkle_leaf_count`. -/
def scribe_merkle_leaf_count (t : scribe_merkle_tree_t) : Nat :=
  t.leaves.length

/-- core/merkle.h `scribe_merkle_proof_t` (`depth` is the common length
of the two arrays). -/
structure scribe_merkle_proof_t where
  hashes : List SData
  positions : List Int
deriving DecidableEq, Repr

/-- core/merkle.c `scribe_merkle_proof_create`, depth computation:
`while (n > 1) { n = (n + 1) / 2; depth++; }` (fuelled; `n` halves each
iteration so fuel `n` always suffices). -/
def merkle_proof_depth_fuel : Nat → Nat → Nat
  | 0, _ => 0
  | Nat.succ f, n => if 2 ≤ n then merkle_proof_depth_fuel f ((n + 1) / 2) + 1 else 0

/-- core/merkle.c `scribe_merkle_proof_create`, tree depth of `n`
leaves. -/
def merkle_proof_depth (n : Nat) : Nat :=
  merkle_proof_depth_fuel n n

/-- core/merkle.c `scribe_merkle_proof_create`: NULL on an unbuilt tree
or an out-of-range index; otherwise the proof arrays are calloc'd to the
tree depth and returned AS-IS — the walk from leaf to root that should
populate them is absent from the source (its body is the comment
"This is a simplified implementation"), so every sibling hash is the
zero digest and every position bit is 0. -/
def scribe_merkle_proof_create (t : scribe_merkle_tree_t)
    (leaf_index : Nat) : Option scribe_merkle_proof_t :=
  if t.built = false ∨ t.leaves.length ≤ leaf_index then none
  else
    let depth := merkle_proof_depth t.leaves.length
    some { hashes := List.replicate depth SData.hzero
           positions := List.replicate depth 0 }

/-- core/merkle.c `scribe_merkle_proof_verify`, the folding loop:
position 0 puts the sibling on the right, otherwise on the left. -/
def merkle_proof_fold (current : SData) : List (SData × Int) → SData
  | [] => current
  | (sib, pos) :: rest =>
    merkle_proof_fold
      (if pos = 0 then scribe_hash_combine current sib
       else scribe_hash_combine sib current) rest

/-- core/merkle.c `scribe_merkle_proof_verify` (non-NULL arguments):
fold the siblings up from the leaf and compare with the supplied root. -/
def scribe_merkle_proof_verify (proof : scribe_merkle_proof_t)
    (leaf_hash root_hash : SData) : Bool :=
  scribe_hash_equal (merkle_proof_fold leaf_hash (proof.hashes.zip proof.positions)) root_hash

/-- core/envelope.c `scribe_envelope_finalize`, tree construction loop:
for each change in order, add `before_hash` then `after_hash` to the
tree whenever the digest is non-zero (via `scribe_merkle_add_hash`, so
the digests become leaf hashes directly). -/
def finalize_add_digests (t : scribe_merkle_tree_t) :
    List scribe_change_t → scribe_merkle_tree_t
  | [] => t
  | c :: rest =>
    let t1 := if scribe_hash_is_zero c.before_hash then t
              else (scribe_merkle_add_hash t (some "before") (some c.before_hash)).2
    let t2 := if scribe_hash_is_zero c.after_hash then t1
              else (scribe_merkle_add_hash t1 (some "after") (some c.after_hash)).2
    finalize_add_digests t2 rest

/-- The leaf digests `scribe_envelope_finalize` feeds to the Merkle
tree: for `i = 0..n-1`, `change_i.before_hash` if non-zero, then
`change_i.after_hash` if non-zero. -/
def change_digest_leaves : List scribe_change_t → List SData
  | [] => []
  | c :: rest =>
    ((if scribe_hash_is_zero c.before_hash then [] else [c.before_hash]) ++
     (if scribe_hash_is_zero c.after_hash then [] else [c.after_hash])) ++
    change_digest_leaves rest

/-- core/envelope.c `scribe_envelope_finalize`, step (1) on a non-NULL
envelope (allocation and serialization always succeed in the model): if
`tree_hash` is zero and there is at least one change, build the Merkle
tree over the non-zero change digests and copy its root into
`tree_hash` (the root pointer is always non-NULL after `build`). -/
def finalize_tree_step (env : scribe_envelope_t) : scribe_envelope_t :=
  if scribe_hash_is_zero env.tree_hash && !env.changes.isEmpty then
    let t := finalize_add_digests scribe_merkle_tree_new env.changes
    let t := (scribe_merkle_build t).2
    match scribe_merkle_root t with
    | some r => { env with tree_hash := r }
    | none => env
  else env

/-- core/envelope.c `scribe_envelope_finalize`, step (2): zero
`commit_id`, serialize, and set `commit_id` to the hash of the
serialization (the commit_id is therefore never part of its own
preimage). -/
def envelope_finalize_impl (env : scribe_envelope_t) : scribe_envelope_t :=
  let env1 := finalize_tree_step env
  { env1 with commit_id :=
      scribe_hash_bytes (scribe_envelope_to_json { env1 with commit_id := SData.hzero }) }

/-- core/envelope.c `scribe_envelope_finalize`: `INVALID_ARG` exactly
when the envelope pointer is NULL; no other field is validated. -/
def scribe_envelope_finalize :
    Option scribe_envelope_t → scribe_error_t × Option scribe_envelope_t
  | none => (.SCRIBE_ERR_INVALID_ARG, none)
  | some env => (.SCRIBE_OK, some (envelope_finalize_impl env))

/-- core/envelope.c `scribe_envelope_verify`: clone, zero the clone's
`commit_id`, re-serialize, hash, and compare with the stored
`commit_id`. -/
def scribe_envelope_verify : Option scribe_envelope_t → scribe_error_t
  | none => .SCRIBE_ERR_INVALID_ARG
  | some env =>
    let copy := scribe_envelope_clone env
    let copy := { copy with commit_id := SData.hzero }
    let computed := scribe_hash_bytes (scribe_envelope_to_json copy)
    if scribe_hash_equal computed env.commit_id then .SCRIBE_OK
    else .SCRIBE_ERR_HASH_MISMATCH

/-- storage/database.c, one row of the `commits` table
(`hash TEXT PRIMARY KEY` is the hex of the commit digest — hex encoding
is injective, so the row is keyed by the digest itself here;
`parent_hash` is NULL when the parent digest is zero). -/
structure commit_row_t where
  hash : SData
  parent_hash : Option SData
  tree_hash : SData
  author_id : Option String
  author_role : Option String
  author_email : Option String
  process_name : Option String
  process_version : Option String
  process_params : Option String
  process_source : Option String
  message : Option String
  timestamp : Int
deriving DecidableEq, Repr

/-- storage/database.c, one row of the `changes` table (`before_hash` /
`after_hash` are NULL when the digest is zero). -/
structure change_row_t where
  commit_hash : SData
  table_name : Option String
  operation : Option String
  primary_key : Option String
  before_hash : Option SData
  after_hash : Option SData
deriving DecidableEq, Repr

/-- storage/database.c, the database state: the `commits` and `changes`
tables in insertion order, and the `refs` table.  A ref value is the
stored TEXT: `none` stands for the empty-string sentinel planted by the
schema (`INSERT OR IGNORE INTO refs VALUES ('HEAD', '')`), `some h` for
the 64-char hex of `h` written by `set_ref`. -/
structure scribe_db_t where
  commits : List commit_row_t
  changes : List change_row_t
  refs : List (String × Option SData)
deriving DecidableEq, Repr

/-- storage/database.c `scribe_db_init_schema` on a fresh database:
empty tables plus the `HEAD` sentinel row. -/
def scribe_db_initial : scribe_db_t :=
  { commits := [], changes := [], refs := [("HEAD", none)] }

/-- The `commits` insert of `scribe_db_store_commit` succeeds only when
the NOT NULL columns `author_id` and `process_name` are bound non-NULL
(`hash`, `tree_hash` and `timestamp` are always bound). -/
def commit_insert_ok (env : scribe_envelope_t) : Bool :=
  env.author.id.isSome && env.process.name.isSome

/-- The `changes` insert succeeds only when `table_name`, `operation`
and `primary_key` are non-NULL and the operation passes the schema
CHECK (`operation IN ('INSERT', 'UPDATE', 'DELETE')`). -/
def change_insert_ok (c : scribe_change_t) : Bool :=
  c.table_name.isSome && c.primary_key.isSome &&
    (c.operation == some "INSERT" || c.operation == some "UPDATE" ||
     c.operation == some "DELETE")

/-- The `changes` row built for a change of commit `h` (zero digests are
bound NULL). -/
def change_row_of (h : SData) (c : scribe_change_t) : change_row_t :=
  { commit_hash := h
    table_name := c.table_name
    operation := c.operation
    primary_key := c.primary_key
    before_hash := if scribe_hash_is_zero c.before_hash then none else some c.before_hash
    after_hash := if scribe_hash_is_zero c.after_hash then none else some c.after_hash }

/-- The `commits` row built for an envelope (a zero `parent_id` is bound
NULL, never as the hex of zero). -/
def commit_row_of (env : scribe_envelope_t) : commit_row_t :=
  { hash := env.commit_id
    parent_hash := if scribe_hash_is_zero env.parent_id then none else some env.parent_id
    tree_hash := env.tree_hash
    author_id := env.author.id
    author_role := env.author.role
    author_email := env.author.email
    process_name := env.process.name
    process_version := env.process.version
    process_params := env.process.params
    process_source := env.process.source
    message := env.message
    timestamp := env.timestamp }

/-- storage/database.c `scribe_db_store_commit`: NULL envelope is
`INVALID_ARG`; a failing `commits` insert (duplicate primary key or a
NOT NULL violation) returns `SCRIBE_ERR_DB` with the database untouched
and the change loop never runs; on success one `changes` row is inserted
per change, with the result of each change insert IGNORED by the source
(`sqlite3_step` unchecked), so rows violating the `changes` constraints
are silently dropped. -/
def scribe_db_store_commit (db : scribe_db_t)
    (env : Option scribe_envelope_t) : scribe_error_t × scribe_db_t :=
  match env with
  | none => (.SCRIBE_ERR_INVALID_ARG, db)
  | some env =>
    if db.commits.any (fun r => r.hash == env.commit_id) || !commit_insert_ok env then
      (.SCRIBE_ERR_DB, db)
    else
      (.SCRIBE_OK,
        { db with
          commits := db.commits ++ [commit_row_of env]
          changes := db.changes ++
            (env.changes.filter change_insert_ok).map (change_row_of env.commit_id) })

/-- storage/database.c `scribe_db_commit_exists`. -/
def scribe_db_commit_exists (db : scribe_db_t) (h : SData) : Bool :=
  db.commits.any (fun r => r.hash == h)

/-- storage/database.c `scribe_db_get_ref`: absent name is `NOT_FOUND`;
a stored value that is not exactly 64 hex chars (the schema's `''`
sentinel) reads as the zero digest, otherwise the hex is decoded. -/
def scribe_db_get_ref (db : scribe_db_t) (name : String) :
    scribe_error_t × SData :=
  match db.refs.find? (fun p => p.1 == name) with
  | none => (.SCRIBE_ERR_NOT_FOUND, SData.hzero)
  | some (_, none) => (.SCRIBE_OK, SData.hzero)
  | some (_, some h) => (.SCRIBE_OK, h)

/-- storage/database.c `scribe_db_set_ref`: `INSERT OR REPLACE` of the
64-char hex of the digest (a NULL hash pointer is `INVALID_ARG`). -/
def scribe_db_set_ref (db : scribe_db_t) (name : String)
    (h : Option SData) : scribe_error_t × scribe_db_t :=
  match h with
  | none => (.SCRIBE_ERR_INVALID_ARG, db)
  | some h =>
    let refs :=
      if db.refs.any (fun p => p.1 == name) then
        db.refs.map (fun p => if p.1 == name then (name, some h) else p)
      else
        db.refs ++ [(name, some h)]
    (.SCRIBE_OK, { db with refs := refs })

/-- storage/database.c `scribe_db_get_history`, the parent lookup
`SELECT parent_hash FROM commits WHERE hash = ?`. -/
def db_lookup_commit (db : scribe_db_t) (h : SData) : Option commit_row_t :=
  db.commits.find? (fun r => r.hash == h)

/-- storage/database.c `scribe_db_get_history`, the walk loop
`while (count < limit && !is_zero(current))`: push `current`; a found
row with a NULL `parent_hash`, or a missing row, zeroes `current`
(ending the walk); otherwise continue from the parent.  The fuel is the
remaining `limit - count`. -/
def history_walk (db : scribe_db_t) : SData → Nat → List SData
  | _, 0 => []
  | current, Nat.succ n =>
    if current = SData.hzero then []
    else
      current ::
        match db_lookup_commit db current with
        | some row =>
          match row.parent_hash with
          | some p => history_walk db p n
          | none => []
        | none => []

/-- storage/database.c `scribe_db_get_history`, HEAD branch: a failed
`get_ref` or a zero HEAD returns NULL. -/
def history_from_head (db : scribe_db_t) (lim : Nat) : Option (List SData) :=
  match scribe_db_get_ref db "HEAD" with
  | (.SCRIBE_OK, h) =>
    if h = SData.hzero then none else some (history_walk db h lim)
  | _ => none

/-- storage/database.c `scribe_db_get_history`: a zero `limit` defaults
to 100; a present non-zero `from` starts the walk there, otherwise the
walk starts at HEAD. -/
def scribe_db_get_history (db : scribe_db_t) (from_hash : Option SData)
    (limit : Nat) : Option (List SData) :=
  let lim := if limit == 0 then 100 else limit
  match from_hash with
  | some f => if f ≠ SData.hzero then some (history_walk db f lim) else history_from_head db lim
  | none => history_from_head db lim

/-- storage/repository.c `scribe_repo_store_commit` (repository.c:345):
on a live repository handle it DELEGATES to `scribe_db_store_commit` —
no finalize, no transaction, no HEAD update. -/
def scribe_repo_store_commit (db : scribe_db_t)
    (env : Option scribe_envelope_t) : scribe_error_t × scribe_db_t :=
  scribe_db_store_commit db env

/-- storage/repository.c `scribe_repo_get_head`. -/
def scribe_repo_get_head (db : scribe_db_t) : scribe_error_t × SData :=
  scribe_db_get_ref db "HEAD"

/-- storage/repository.c `scribe_repo_set_head`. -/
def scribe_repo_set_head (db : scribe_db_t) (h : Option SData) :
    scribe_error_t × scribe_db_t :=
  scribe_db_set_ref db "HEAD" h

/-- storage/repository.c `scribe_repo_get_history`: delegates (the
public list type is the same structure). -/
def scribe_repo_get_history (db : scribe_db_t) (from_hash : Option SData)
    (limit : Nat) : Option (List SData) :=
  scribe_db_get_history db from_hash limit

/-- commands/cmd_commit.c lines 117-137, the change digests built from
`--operation` and `--data`: `INSERT` hashes the data into `after`;
`DELETE` hashes it into `before`; ANY other operation string falls into
the `UPDATE` arm, which leaves `before` NULL (the zero digest) and
hashes the data into `after`.  A missing `--data` leaves the hash slot
zero. -/
def cmd_commit_build_change (op : String) (data : Option String) :
    Option SData × Option SData :=
  let data_hash :=
    match data with
    | some d => scribe_hash_bytes (SData.bytes d)
    | none => SData.hzero
  if op == "INSERT" then (none, some data_hash)
  else if op == "DELETE" then (some data_hash, none)
  else (none, some data_hash)

/-- commands/cmd_commit.c lines 140-168, the writer pipeline after the
envelope is assembled: finalize; `scribe_repo_store_commit`; on success
`scribe_repo_set_head` with the new `commit_id`.  Each failure is
surfaced immediately (exit 1); there is no `begin`/`commit`/`rollback`
anywhere in this path. -/
def cmd_commit_store_pipeline (db : scribe_db_t)
    (env : scribe_envelope_t) : scribe_error_t × scribe_db_t :=
  let env := envelope_finalize_impl env
  match scribe_repo_store_commit db (some env) with
  | (.SCRIBE_OK, db1) =>
    match scribe_repo_set_head db1 (some env.commit_id) with
    | (.SCRIBE_OK, db2) => (.SCRIBE_OK, db2)
    | (e, db2) => (e, db2)
  | (e, db1) => (e, db1)

/-- The change invariants as the specification states them (§3 Data
model): the operation string is one of the three enumerated values; for
`UPDATE` neither digest is zero; for `INSERT` `before_digest` is zero;
for `DELETE` `after_digest` is zero.  Stated from the spec's words, to
be compared with what the code enforces. -/
def change_invariant_spec (c : scribe_change_t) : Bool :=
  (c.operation == some "INSERT" || c.operation == some "UPDATE" ||
   c.operation == some "DELETE") &&
  (if c.operation == some "UPDATE" then
     !scribe_hash_is_zero c.before_hash && !scribe_hash_is_zero c.after_hash
   else true) &&
  (if c.operation == some "INSERT" then scribe_hash_is_zero c.before_hash else true) &&
  (if c.operation == some "DELETE" then scribe_hash_is_zero c.after_hash else true)

/-- The reference bottom-up pairing of one level, as the specification
words it (§4.3): combine adjacent pairs; at a level with an odd number
of nodes the last node is paired with itself (`internal(x, x)`), not
promoted. -/
def merkle_pair_level_spec : List SData → List SData
  | [] => []
  | [x] => [scribe_hash_combine x x]
  | x :: y :: rest => scribe_hash_combine x y :: merkle_pair_level_spec rest

/-- The reference bottom-up level iteration (fuelled like the
implementation's loop; the level halves each step, so fuel at least the
length is always enough). -/
def merkle_root_spec_levels : Nat → List SData → List SData
  | 0, l => l
  | Nat.succ n, l =>
    if 2 ≤ l.length then merkle_root_spec_levels n (merkle_pair_level_spec l) else l

/-- The reference Merkle root, as the specification words it (§4.3):
empty tree has the zero digest as root; one leaf is the root; otherwise
fold levels bottom-up until one node remains. -/
def merkle_root_spec (l : List SData) : SData :=
  match l with
  | [] => SData.hzero
  | [h] => h
  | l => (merkle_root_spec_levels l.length l).headD SData.hzero

/-- A tree populated through `scribe_merkle_add_hash` from a list of
pre-computed digests, in order. -/
def merkle_from_hashes (hs : List SData) : scribe_merkle_tree_t :=
  hs.foldl (fun t h => (scribe_merkle_add_hash t (some "leaf") (some h)).2)
    scribe_merkle_tree_new

/-- A `commits` row for a chain link (only `hash` and `parent_hash`
matter to the history walk). -/
def chain_commit_row (h : SData) (parent : Option SData) : commit_row_t :=
  { hash := h
    parent_hash := parent
    tree_hash := SData.hzero
    author_id := some "user:anonymous"
    author_role := none
    author_email := none
    process_name := some "manual"
    process_version := none
    process_params := none
    process_source := none
    message := none
    timestamp := 0 }

/-- The `commits` rows of a linear chain given newest-first: each id's
parent is the next id in the list, the oldest having a NULL parent. -/
def chain_rows : List SData → List commit_row_t
  | [] => []
  | h :: rest => chain_commit_row h rest.head? :: chain_rows rest

/-- A database holding exactly a linear chain of commits, ids given
newest-first, with HEAD at the newest (the schema sentinel when the
chain is empty). -/
def chain_db (ids : List SData) : scribe_db_t :=
  { commits := chain_rows ids
    changes := []
    refs := [("HEAD", ids.head?)] }

/-- An even-length list presented as consecutive pairs (used to state
the odd-level rule without a parity hypothesis). -/
def pairs_flatten : List (SData × SData) → List SData
  | [] => []
  | (a, b) :: ps => a :: b :: pairs_flatten ps

/-- A concrete envelope used as the shared concrete input of the
witnesses: author, process, message set, one INSERT change with a
non-zero after digest (spec §8 S2 shape). -/
def sample_envelope : scribe_envelope_t :=
  scribe_envelope_add_change
    (scribe_envelope_set_message
      (scribe_envelope_set_process
        (scribe_envelope_set_author (scribe_envelope_new 1700000000)
          (some "user:alice") (some "data_engineer"))
        (some "etl.py") (some "v1") none)
      (some "seed"))
    (some "orders") (some "INSERT") (some "pk1") none
    (some (scribe_hash_bytes (SData.bytes "row1")))

/-! ## Basic lemmas -/

theorem shash_is_zero_iff (h : SData) :
    scribe_hash_is_zero h = true ↔ h = SData.hzero := by
  simp [scribe_hash_is_zero]

theorem find?_append_of_none {α : Type} (p : α → Bool) (l1 l2 : List α)
    (h : ∀ x ∈ l1, p x = false) : (l1 ++ l2).find? p = l2.find? p := by
  induction l1 with
  | nil => rfl
  | cons a t ih =>
    have hpa := h a (List.mem_cons_self a t)
    simp only [List.cons_append, List.find?, hpa]
    exact ih (fun x hx => h x (List.mem_cons_of_mem a hx))

/-! ## Merkle lemmas -/

theorem merkle_level_up_eq_spec : ∀ l, merkle_level_up l = merkle_pair_level_spec l
  | [] => rfl
  | [_] => rfl
  | x :: y :: rest => by
    simp only [merkle_level_up, merkle_pair_level_spec]
    exact congrArg _ (merkle_level_up_eq_spec rest)

theorem merkle_build_levels_eq_spec :
    ∀ (n : Nat) (l : List SData), merkle_build_levels n l = merkle_root_spec_levels n l
  | 0, _ => rfl
  | Nat.succ n, l => by
    simp only [merkle_build_levels, merkle_root_spec_levels, merkle_level_up_eq_spec]
    by_cases h : 2 ≤ l.length
    · simp only [h, if_true, merkle_build_levels_eq_spec n]
    · simp only [h, if_false]

theorem merkle_build_root_eq (t : scribe_merkle_tree_t) (hb : t.built = false) :
    (scribe_merkle_build t).2.root = some (merkle_root_spec t.leaves) := by
  rcases t with ⟨leaves, built, root⟩
  simp only at hb
  subst hb
  match leaves with
  | [] => rfl
  | [h] => rfl
  | a :: b :: rest =>
    simp only [scribe_merkle_build, merkle_root_spec]
    norm_num [merkle_build_levels_eq_spec]

theorem merkle_add_hash_unbuilt (t : scribe_merkle_tree_t)
    (f : Option String) (h : SData) (hb : t.built = false) :
    scribe_merkle_add_hash t f (some h) =
      (.SCRIBE_OK, { t with leaves := t.leaves ++ [h] }) := by
  simp [scribe_merkle_add_hash, hb]

theorem merkle_from_hashes_foldl :
    ∀ (hs : List SData) (t : scribe_merkle_tree_t), t.built = false →
      hs.foldl (fun t h => (scribe_merkle_add_hash t (some "leaf") (some h)).2) t
        = { t with leaves := t.leaves ++ hs }
  | [], t, _ => by simp
  | h :: hs, t, hb => by
    simp only [List.foldl_cons]
    rw [merkle_add_hash_unbuilt t _ h hb]
    rw [merkle_from_hashes_foldl hs { t with leaves := t.leaves ++ [h] } hb]
    simp

theorem merkle_from_hashes_eq (hs : List SData) :
    merkle_from_hashes hs = { leaves := hs, built := false, root := none } := by
  unfold merkle_from_hashes
  rw [merkle_from_hashes_foldl hs scribe_merkle_tree_new rfl]
  rfl

theorem merkle_level_up_append_pairs :
    ∀ (pairs : List (SData × SData)) (x : SData),
      merkle_level_up (pairs_flatten pairs ++ [x]) =
        merkle_level_up (pairs_flatten pairs) ++ [scribe_hash_combine x x]
  | [], _ => rfl
  | (a, b) :: ps, x => by
    simp only [pairs_flatten, List.cons_append, merkle_level_up, List.append_eq]
    rw [merkle_level_up_append_pairs ps x]

/-- C5: after `build`, an empty tree has the zero digest as root, a
single leaf is the root, the built root equals the reference bottom-up
definition (`merkle_root_spec`, which pairs the last node of an odd
level with itself) bit-exactly, and one pairing level sends an appended
odd last node `x` to `hash_internal(x, x)`. -/
theorem merkle_build_matches_reference :
    scribe_merkle_root (scribe_merkle_build (merkle_from_hashes [])).2 = some SData.hzero ∧
    (∀ h : SData,
      scribe_merkle_root (scribe_merkle_build (merkle_from_hashes [h])).2 = some h) ∧
    (∀ hs : List SData,
      scribe_merkle_root (scribe_merkle_build (merkle_from_hashes hs)).2
        = some (merkle_root_spec hs)) ∧
    (∀ (pairs : List (SData × SData)) (x : SData),
      merkle_level_up (pairs_flatten pairs ++ [x]) =
        merkle_level_up (pairs_flatten pairs) ++ [scribe_hash_combine x x]) := by
  have h3 : ∀ hs : List SData,
      scribe_merkle_root (scribe_merkle_build (merkle_from_hashes hs)).2
        = some (merkle_root_spec hs) := by
    intro hs
    rw [merkle_from_hashes_eq]
    exact merkle_build_root_eq _ rfl
  exact ⟨h3 [], fun h => h3 [h], h3, merkle_level_up_append_pairs⟩

/-- C2 (code behavior at a concrete input): on the two-leaf tree over
the digests of "a" and "b", `scribe_merkle_proof_create` returns the
calloc-zeroed proof (its populating walk is absent from the source) and
`scribe_merkle_proof_verify` on that proof, the first leaf's hash and
the tree root returns false — the round-trip the claim requires fails. -/
theorem merkle_proof_roundtrip_fails_concrete :
    scribe_merkle_proof_create
        ((scribe_merkle_build (merkle_from_hashes
          [SData.hbytes (SData.bytes "a"), SData.hbytes (SData.bytes "b")])).2) 0
      = some { hashes := [SData.hzero], positions := [0] } ∧
    scribe_merkle_proof_verify { hashes := [SData.hzero], positions := [0] }
        (SData.hbytes (SData.bytes "a"))
        ((scribe_merkle_root ((scribe_merkle_build (merkle_from_hashes
          [SData.hbytes (SData.bytes "a"), SData.hbytes (SData.bytes "b")])).2)).getD SData.hzero)
      = false := by
  constructor
  · rfl
  · decide

/-! ## Envelope lemmas -/

theorem add_change_foldl :
    ∀ (cs : List scribe_change_t) (e : scribe_envelope_t),
      cs.foldl
        (fun acc ch =>
          scribe_envelope_add_change acc ch.table_name ch.operation ch.primary_key
            (some ch.before_hash) (some ch.after_hash)) e
        = { e with changes := e.changes ++ cs }
  | [], e => by simp
  | c :: cs, e => by
    simp only [List.foldl_cons]
    rw [add_change_foldl cs]
    simp [scribe_envelope_add_change]

theorem scribe_envelope_clone_eq (env : scribe_envelope_t) :
    scribe_envelope_clone env = env := by
  obtain ⟨cid, pid, th, ⟨aid, arole, aemail⟩, ⟨pname, pver, pparams, psrc⟩, ts, msg, chs⟩ := env
  simp only [scribe_envelope_clone, scribe_envelope_new, scribe_envelope_set_author,
    scribe_envelope_set_author_email, scribe_envelope_set_process,
    scribe_envelope_set_process_source, scribe_envelope_set_message]
  cases aemail <;> cases psrc <;> cases msg <;>
    simp [add_change_foldl]

theorem merkle_add_hash_false (leaves : List SData) (root : Option SData)
    (f : Option String) (h : SData) :
    scribe_merkle_add_hash ⟨leaves, false, root⟩ f (some h)
      = (.SCRIBE_OK, ⟨leaves ++ [h], false, root⟩) := rfl

theorem finalize_add_digests_eq :
    ∀ (cs : List scribe_change_t) (leaves : List SData) (root : Option SData),
      finalize_add_digests ⟨leaves, false, root⟩ cs
        = ⟨leaves ++ change_digest_leaves cs, false, root⟩
  | [], leaves, root => by simp [finalize_add_digests, change_digest_leaves]
  | c :: cs, leaves, root => by
    by_cases hbz : scribe_hash_is_zero c.before_hash <;>
      by_cases haz : scribe_hash_is_zero c.after_hash <;>
        simp only [finalize_add_digests, change_digest_leaves, hbz, haz, if_true, if_false,
          Bool.false_eq_true, merkle_add_hash_false, finalize_add_digests_eq cs] <;>
        simp [List.append_assoc]

theorem finalize_tree_step_eq (env : scribe_envelope_t) :
    finalize_tree_step env =
      if scribe_hash_is_zero env.tree_hash && !env.changes.isEmpty then
        { env with tree_hash := merkle_root_spec (change_digest_leaves env.changes) }
      else env := by
  unfold finalize_tree_step scribe_merkle_tree_new
  by_cases h : (scribe_hash_is_zero env.tree_hash && !env.changes.isEmpty) = true
  · simp only [h, if_true]
    rw [finalize_add_digests_eq env.changes [] none]
    have hr := merkle_build_root_eq ⟨[] ++ change_digest_leaves env.changes, false, none⟩ rfl
    simp only [scribe_merkle_root]
    rw [hr]
    simp
  · simp [h]

theorem envelope_finalize_commit_id (env : scribe_envelope_t) :
    (envelope_finalize_impl env).commit_id =
      scribe_hash_bytes (scribe_envelope_to_json
        { envelope_finalize_impl env with commit_id := SData.hzero }) := rfl

theorem envelope_verify_finalized (env : scribe_envelope_t) :
    scribe_envelope_verify (some (envelope_finalize_impl env)) = .SCRIBE_OK := by
  simp only [scribe_envelope_verify, scribe_envelope_clone_eq]
  rw [← envelope_finalize_commit_id env]
  simp [scribe_hash_equal]

/-- C1: for every envelope, after finalize the `commit_id` equals
`hash_bytes` of the canonical JSON serialization of the finalized
envelope with `commit_id` set to zero (the commit_id is excluded from
its own preimage), and `verify` on the finalized envelope returns
`SCRIBE_OK` rather than `HASH_MISMATCH`.  (In the model, finalize
succeeds on every non-NULL envelope: allocation cannot fail.) -/
theorem finalize_commit_id_verify_ok :
    ∀ env : scribe_envelope_t,
      (envelope_finalize_impl env).commit_id =
        scribe_hash_bytes (scribe_envelope_to_json
          { envelope_finalize_impl env with commit_id := SData.hzero }) ∧
      scribe_envelope_verify (some (envelope_finalize_impl env)) = .SCRIBE_OK :=
  fun env => ⟨envelope_finalize_commit_id env, envelope_verify_finalized env⟩

/-- C4: for every envelope with zero `tree_hash` and at least one change
carrying a non-zero digest, finalize sets `tree_hash` to the Merkle root
over exactly the non-zero digests in order (`change_i.before` if
non-zero, then `change_i.after` if non-zero) — each pre-computed digest
entering as a leaf hash directly, with no `0x00` leaf prefix
(`change_digest_leaves` collects the raw digests and `merkle_root_spec`
never re-hashes a leaf). -/
theorem finalize_sets_tree_hash (env : scribe_envelope_t)
    (h1 : env.tree_hash = SData.hzero)
    (h2 : ∃ c ∈ env.changes,
      c.before_hash ≠ SData.hzero ∨ c.after_hash ≠ SData.hzero) :
    (envelope_finalize_impl env).tree_hash
      = merkle_root_spec (change_digest_leaves env.changes) := by
  have hne : env.changes.isEmpty = false := by
    rcases h2 with ⟨c, hc, _⟩
    rcases h' : env.changes with _ | ⟨a, l⟩
    · rw [h'] at hc; simp at hc
    · rfl
  have hguard : (scribe_hash_is_zero env.tree_hash && !env.changes.isEmpty) = true := by
    simp [scribe_hash_is_zero, h1, hne]
  have hth : (envelope_finalize_impl env).tree_hash = (finalize_tree_step env).tree_hash := rfl
  rw [hth, finalize_tree_step_eq]
  simp [hguard]

/-- C4 witness: the claim's hypotheses hold at `sample_envelope` and the
theorem applies there. -/
theorem finalize_sets_tree_hash_witness :
    sample_envelope.tree_hash = SData.hzero ∧
    (∃ c ∈ sample_envelope.changes,
      c.before_hash ≠ SData.hzero ∨ c.after_hash ≠ SData.hzero) ∧
    (envelope_finalize_impl sample_envelope).tree_hash
      = merkle_root_spec (change_digest_leaves sample_envelope.changes) :=
  ⟨rfl, by decide, finalize_sets_tree_hash sample_envelope rfl (by decide)⟩

/-- C9 counterexample: a fresh envelope has every required field absent
(NULL author id, NULL process name, no changes), yet finalize returns
`SCRIBE_OK`, not `SCRIBE_ERR_INVALID_ARG` as the claim requires. -/
theorem finalize_absent_fields_not_invalid_arg :
    (scribe_envelope_finalize (some (scribe_envelope_new 0))).1
      ≠ .SCRIBE_ERR_INVALID_ARG := by
  decide

/-- C9 amended: finalize returns `INVALID_ARG` exactly when the envelope
pointer itself is NULL; it performs no validation of the envelope's
fields, and (in the model, where allocation and serialization cannot
fail) every non-NULL envelope finalizes with `SCRIBE_OK`. -/
theorem finalize_invalid_arg_only_for_null :
    scribe_envelope_finalize none = (.SCRIBE_ERR_INVALID_ARG, none) ∧
    ∀ env : scribe_envelope_t,
      (scribe_envelope_finalize (some env)).1 = .SCRIBE_OK :=
  ⟨rfl, fun _ => rfl⟩

theorem finalize_tree_step_commit_id (env : scribe_envelope_t) (c : SData) :
    finalize_tree_step { env with commit_id := c }
      = { finalize_tree_step env with commit_id := c } := by
  rw [finalize_tree_step_eq, finalize_tree_step_eq]
  by_cases h : (scribe_hash_is_zero env.tree_hash && !env.changes.isEmpty) = true
  · simp only at h
    simp [h]
  · simp only at h
    simp [h]

theorem finalize_tree_step_idem (env : scribe_envelope_t) :
    finalize_tree_step (finalize_tree_step env) = finalize_tree_step env := by
  rw [finalize_tree_step_eq env]
  by_cases h : (scribe_hash_is_zero env.tree_hash && !env.changes.isEmpty) = true
  · rw [if_pos h, finalize_tree_step_eq]
    dsimp only
    simp only [Bool.and_eq_true] at h
    by_cases h2 : scribe_hash_is_zero (merkle_root_spec (change_digest_leaves env.changes)) = true
    · rw [if_pos (by simp [h2, h.2])]
    · rw [if_neg (by simp [Bool.not_eq_true] at h2 ⊢; simp [h2])]
  · rw [if_neg h, finalize_tree_step_eq, if_neg h]

theorem impl_of_tree_fixed (e : scribe_envelope_t)
    (h : finalize_tree_step e = e) :
    envelope_finalize_impl e =
      { e with commit_id :=
          scribe_hash_bytes (scribe_envelope_to_json { e with commit_id := SData.hzero }) } := by
  unfold envelope_finalize_impl
  rw [h]

/-- C10: finalize is idempotent: a second finalize on an
already-finalized envelope is the identity on the result (in particular
both `tree_hash` and `commit_id` are unchanged: the tree step does not
alter an already-computed `tree_hash`, and the commit id recomputed over
the commit_id-zeroed serialization equals the previous one). -/
theorem envelope_finalize_idempotent :
    ∀ env : Option scribe_envelope_t,
      scribe_envelope_finalize (scribe_envelope_finalize env).2
        = scribe_envelope_finalize env := by
  intro env
  match env with
  | none => rfl
  | some env =>
    show (scribe_error_t.SCRIBE_OK, some (envelope_finalize_impl (envelope_finalize_impl env)))
        = (scribe_error_t.SCRIBE_OK, some (envelope_finalize_impl env))
    have h1 : finalize_tree_step (envelope_finalize_impl env)
        = envelope_finalize_impl env := by
      show finalize_tree_step { finalize_tree_step env with commit_id := _ } = _
      rw [finalize_tree_step_commit_id, finalize_tree_step_idem]
      exact rfl
    rw [impl_of_tree_fixed _ h1]
    exact rfl

/-- C8 counterexample: an envelope built through `add_change` holds a
change whose operation is the string "FOO" with both digests zero —
violating every clause of the spec's change invariants. -/
theorem envelope_holds_invalid_change :
    ((scribe_envelope_add_change (scribe_envelope_new 0)
        (some "orders") (some "FOO") (some "pk1") none none).changes.all
      change_invariant_spec) = false := by
  decide

/-- C8 amended: neither `add_change` nor the commit command enforces the
change invariants: `add_change` appends any change unvalidated (any
operation string, any digest pattern), and the commit command's change
builder sends every operation other than INSERT and DELETE down the
UPDATE arm with a NULL (zero) before digest, so the UPDATE changes it
builds always violate the spec invariant.  (The invariants are enforced
only by the `changes` table CHECK constraint, and those insert failures
are ignored by `scribe_db_store_commit`.) -/
theorem add_change_appends_unvalidated :
    (∀ (env : scribe_envelope_t) (t o p : Option String) (b a : Option SData),
      scribe_envelope_add_change env t o p b a =
        { env with changes := env.changes ++
            [{ table_name := t, operation := o, primary_key := p,
               before_hash := b.getD SData.hzero, after_hash := a.getD SData.hzero }] }) ∧
    (∀ (tn pk d : String),
      change_invariant_spec
        { table_name := some tn
          operation := some "UPDATE"
          primary_key := some pk
          before_hash := (cmd_commit_build_change "UPDATE" (some d)).1.getD SData.hzero
          after_hash := (cmd_commit_build_change "UPDATE" (some d)).2.getD SData.hzero }
        = false) := by
  constructor
  · intro env t o p b a
    rfl
  · intro tn pk d
    rfl

/-! ## Database lemmas -/

theorem history_walk_length (db : scribe_db_t) :
    ∀ (n : Nat) (current : SData), (history_walk db current n).length ≤ n
  | 0, _ => by simp [history_walk]
  | Nat.succ n, current => by
    by_cases h : current = SData.hzero
    · simp [history_walk, h]
    · cases hlk : db_lookup_commit db current with
      | none => simp [history_walk, h, hlk]
      | some row =>
        cases hp : row.parent_hash with
        | none => simp [history_walk, h, hlk, hp]
        | some p =>
          simp only [history_walk, h, if_neg, if_false, hlk, hp, List.length_cons]
          exact Nat.succ_le_succ (history_walk_length db n p)

theorem history_walk_chain :
    ∀ (l : List SData) (db : scribe_db_t) (pre : List commit_row_t) (n : Nat),
      db.commits = pre ++ chain_rows l →
      (∀ x ∈ l, x ≠ SData.hzero) →
      l.Nodup →
      (∀ r ∈ pre, ∀ x ∈ l, r.hash ≠ x) →
      l.length ≤ n →
      history_walk db (l.headD SData.hzero) n = l
  | [], db, pre, n, hdb, hnz, hnd, hpre, hlen => by
    cases n <;> simp [history_walk]
  | h :: t, db, pre, n, hdb, hnz, hnd, hpre, hlen => by
    obtain ⟨m, rfl⟩ : ∃ m, n = m + 1 := by
      rcases n with _ | m
      · simp at hlen
      · exact ⟨m, rfl⟩
    have hh : h ≠ SData.hzero := hnz h (List.mem_cons_self h t)
    have hlk : db_lookup_commit db h = some (chain_commit_row h t.head?) := by
      unfold db_lookup_commit
      rw [hdb, find?_append_of_none _ pre _ (fun r hr => by
        have := hpre r hr h (List.mem_cons_self h t)
        simpa using this)]
      simp [chain_rows, List.find?, chain_commit_row]
    simp only [List.headD, history_walk, if_neg hh, hlk]
    cases t with
    | nil => simp [chain_commit_row]
    | cons h2 t2 =>
      have hrec := history_walk_chain (h2 :: t2) db
        (pre ++ [chain_commit_row h (h2 :: t2).head?]) m
        (by rw [hdb]; simp [chain_rows])
        (fun x hx => hnz x (List.mem_cons_of_mem h hx))
        (List.Nodup.of_cons hnd)
        (fun r hr x hx => by
          rcases List.mem_append.mp hr with hr1 | hr2
          · exact hpre r hr1 x (List.mem_cons_of_mem h hx)
          · have hre : r = chain_commit_row h (h2 :: t2).head? := by simpa using hr2
            have hhx : h ≠ x := by
              intro hcontra
              exact (List.nodup_cons.mp hnd).1 (hcontra ▸ hx)
            simpa [hre, chain_commit_row] using hhx)
        (by simpa using Nat.le_of_succ_le_succ hlen)
      simp only [List.headD] at hrec
      simp [chain_commit_row, hrec]

theorem find?_map_upsert (name : String) (h : SData) :
    ∀ (l : List (String × Option SData)),
      l.any (fun p => p.1 == name) = true →
      (l.map (fun p => if p.1 == name then (name, some h) else p)).find?
          (fun p => p.1 == name)
        = some (name, some h)
  | [], hx => by simp at hx
  | p :: t, hx => by
    by_cases hp : (p.1 == name) = true
    · simp [List.find?, hp]
    · have hx' : t.any (fun p => p.1 == name) = true := by
        simp only [List.any_cons, hp, Bool.false_or] at hx
        exact hx
      have hpb : (p.1 == name) = false := by simpa using hp
      simp only [List.map_cons, hpb, if_false, Bool.false_eq_true, List.find?]
      exact find?_map_upsert name h t hx'

theorem get_ref_after_set (db : scribe_db_t) (name : String) (h : SData) :
    scribe_db_get_ref (scribe_db_set_ref db name (some h)).2 name
      = (.SCRIBE_OK, h) := by
  unfold scribe_db_set_ref scribe_db_get_ref
  by_cases hx : db.refs.any (fun p => p.1 == name) = true
  · dsimp only
    rw [if_pos hx, find?_map_upsert name h db.refs hx]
  · dsimp only
    rw [if_neg hx]
    rw [find?_append_of_none _ db.refs _ (fun x hxm => by
      by_contra hcon
      exact hx (List.any_eq_true.mpr ⟨x, hxm, by simpa using hcon⟩))]
    simp [List.find?]

theorem set_ref_commits (db : scribe_db_t) (name : String) (h : SData) :
    ((scribe_db_set_ref db name (some h)).2).commits = db.commits := by
  unfold scribe_db_set_ref
  dsimp only

theorem store_commit_some_eq (db : scribe_db_t) (env : scribe_envelope_t) :
    scribe_db_store_commit db (some env) =
      if db.commits.any (fun r => r.hash == env.commit_id) || !commit_insert_ok env then
        (.SCRIBE_ERR_DB, db)
      else
        (.SCRIBE_OK,
          { db with
            commits := db.commits ++ [commit_row_of env]
            changes := db.changes ++
              (env.changes.filter change_insert_ok).map (change_row_of env.commit_id) }) := rfl

theorem pipeline_store_fail (db : scribe_db_t) (env : scribe_envelope_t)
    (hc : (db.commits.any (fun r => r.hash == (envelope_finalize_impl env).commit_id)
        || !commit_insert_ok (envelope_finalize_impl env)) = true) :
    cmd_commit_store_pipeline db env = (.SCRIBE_ERR_DB, db) := by
  unfold cmd_commit_store_pipeline scribe_repo_store_commit
  simp only [store_commit_some_eq, hc, if_true]

theorem pipeline_store_ok (db : scribe_db_t) (env : scribe_envelope_t)
    (hc : (db.commits.any (fun r => r.hash == (envelope_finalize_impl env).commit_id)
        || !commit_insert_ok (envelope_finalize_impl env)) = false) :
    cmd_commit_store_pipeline db env
      = (.SCRIBE_OK,
         (scribe_db_set_ref
           { db with
             commits := db.commits ++ [commit_row_of (envelope_finalize_impl env)]
             changes := db.changes ++
               ((envelope_finalize_impl env).changes.filter change_insert_ok).map
                 (change_row_of (envelope_finalize_impl env).commit_id) }
           "HEAD" (some (envelope_finalize_impl env).commit_id)).2) := by
  unfold cmd_commit_store_pipeline scribe_repo_store_commit scribe_repo_set_head
  simp only [store_commit_some_eq, hc, if_false, Bool.false_eq_true, scribe_db_set_ref]

/-- C6: `get_history` walks the parent chain from the given id (from
HEAD when none is given), newest first; on a database holding a linear
chain of `k` commits it returns exactly those `k` ids in reverse
creation order with limit `k`, and the same `k` ids with limit `k + 1`
(the walk stops at the zero parent); a zero limit defaults to 100; and
the walk never returns more than the limit. -/
theorem get_history_parent_chain (ids : List SData)
    (h1 : ids ≠ []) (h2 : ∀ x ∈ ids, x ≠ SData.hzero) (h3 : ids.Nodup) :
    scribe_db_get_history (chain_db ids) none ids.length = some ids ∧
    scribe_db_get_history (chain_db ids) none (ids.length + 1) = some ids ∧
    (∀ (db : scribe_db_t) (f : Option SData),
      scribe_db_get_history db f 0 = scribe_db_get_history db f 100) ∧
    (∀ (db : scribe_db_t) (c : SData) (n : Nat),
      (history_walk db c n).length ≤ n) := by
  obtain ⟨h, t, rfl⟩ : ∃ h t, ids = h :: t := by
    rcases ids with _ | ⟨h, t⟩
    · exact absurd rfl h1
    · exact ⟨h, t, rfl⟩
  have hwalk : ∀ n, (h :: t).length ≤ n →
      history_walk (chain_db (h :: t)) h n = h :: t := by
    intro n hn
    have hcw := history_walk_chain (h :: t) (chain_db (h :: t)) [] n rfl h2 h3
      (fun r hr => by simp at hr) hn
    simpa [List.headD] using hcw
  have hhead : scribe_db_get_ref (chain_db (h :: t)) "HEAD" = (.SCRIBE_OK, h) := rfl
  have hfrom : ∀ n, (h :: t).length ≤ n →
      history_from_head (chain_db (h :: t)) n = some (h :: t) := by
    intro n hn
    unfold history_from_head
    rw [hhead]
    show (if h = SData.hzero then none
          else some (history_walk (chain_db (h :: t)) h n)) = some (h :: t)
    rw [if_neg (h2 h (List.mem_cons_self h t)), hwalk n hn]
  refine ⟨?_, ?_, fun db f => rfl, fun db c n => history_walk_length db n c⟩
  · unfold scribe_db_get_history
    have hlim : (((h :: t).length : Nat) == 0) = false := by simp
    simp only [hlim, if_false, Bool.false_eq_true]
    exact hfrom _ (Nat.le_refl _)
  · unfold scribe_db_get_history
    have hlim : ((((h :: t).length : Nat) + 1) == 0) = false := by simp
    simp only [hlim, if_false, Bool.false_eq_true]
    exact hfrom _ (Nat.le_succ _)

/-- C6 witness: a concrete two-commit chain satisfies the hypotheses and
the theorem applies. -/
theorem get_history_parent_chain_witness :
    scribe_db_get_history
        (chain_db [SData.hbytes (SData.bytes "c2"), SData.hbytes (SData.bytes "c1")])
        none 2
      = some [SData.hbytes (SData.bytes "c2"), SData.hbytes (SData.bytes "c1")] ∧
    scribe_db_get_history
        (chain_db [SData.hbytes (SData.bytes "c2"), SData.hbytes (SData.bytes "c1")])
        none 3
      = some [SData.hbytes (SData.bytes "c2"), SData.hbytes (SData.bytes "c1")] :=
  have hthm := get_history_parent_chain
    [SData.hbytes (SData.bytes "c2"), SData.hbytes (SData.bytes "c1")]
    (by decide) (by decide) (by decide)
  ⟨hthm.1, hthm.2.1⟩

/-- C7: inserting a commit whose `commit_id` is already present fails
with `SCRIBE_ERR_DB` (the `hash` primary key rejects the second insert)
leaving the `commits` and `changes` tables unchanged; and re-running the
commit pipeline with the same envelope fails at the store step without
advancing HEAD or touching any state — `store_commit` succeeds only on
the first insertion. -/
theorem store_commit_duplicate_fails :
    ∀ (db : scribe_db_t) (env : scribe_envelope_t),
      (scribe_db_commit_exists db env.commit_id = true →
        scribe_db_store_commit db (some env) = (.SCRIBE_ERR_DB, db)) ∧
      ((cmd_commit_store_pipeline db env).1 = .SCRIBE_OK →
        cmd_commit_store_pipeline (cmd_commit_store_pipeline db env).2 env
          = (.SCRIBE_ERR_DB, (cmd_commit_store_pipeline db env).2)) := by
  intro db env
  constructor
  · intro hdup
    rw [store_commit_some_eq]
    rw [if_pos (by simp only [scribe_db_commit_exists] at hdup; simp [hdup])]
  · intro hok
    cases hbool : (db.commits.any (fun r => r.hash == (envelope_finalize_impl env).commit_id)
        || !commit_insert_ok (envelope_finalize_impl env)) with
    | true =>
      rw [pipeline_store_fail db env hbool] at hok
      simp at hok
    | false =>
      rw [pipeline_store_ok db env hbool]
      dsimp only
      apply pipeline_store_fail
      rw [set_ref_commits]
      simp [commit_row_of]

/-- C7 witness: the pipeline succeeds once on the empty repository with
`sample_envelope`, and both the repeated pipeline and the direct
duplicate insert fail with `SCRIBE_ERR_DB` leaving the state unchanged. -/
theorem store_commit_duplicate_fails_witness :
    cmd_commit_store_pipeline
        (cmd_commit_store_pipeline scribe_db_initial sample_envelope).2 sample_envelope
      = (.SCRIBE_ERR_DB, (cmd_commit_store_pipeline scribe_db_initial sample_envelope).2) ∧
    scribe_db_store_commit
        (cmd_commit_store_pipeline scribe_db_initial sample_envelope).2
        (some (envelope_finalize_impl sample_envelope))
      = (.SCRIBE_ERR_DB, (cmd_commit_store_pipeline scribe_db_initial sample_envelope).2) :=
  ⟨(store_commit_duplicate_fails scribe_db_initial sample_envelope).2 (by decide),
   (store_commit_duplicate_fails
      (cmd_commit_store_pipeline scribe_db_initial sample_envelope).2
      (envelope_finalize_impl sample_envelope)).1 (by decide)⟩

/-- C3 counterexample: on the freshly initialized store,
`scribe_repo_store_commit` with a finalized envelope succeeds — yet HEAD
still reads as the zero sentinel, not the new commit id: the facade
neither advances HEAD nor opens any transaction (and it never finalizes;
it delegates to the database insert). -/
theorem repo_store_commit_does_not_advance_head :
    (scribe_repo_store_commit scribe_db_initial
        (some (envelope_finalize_impl sample_envelope))).1 = .SCRIBE_OK ∧
    scribe_db_get_ref
        (scribe_repo_store_commit scribe_db_initial
          (some (envelope_finalize_impl sample_envelope))).2 "HEAD"
      = (.SCRIBE_OK, SData.hzero) ∧
    (envelope_finalize_impl sample_envelope).commit_id ≠ SData.hzero := by
  refine ⟨by decide, by decide, by decide⟩

/-- C3 amended: the repository facade's `store_commit` delegates
directly to the database insert (no finalize, no transaction, no HEAD
update); the writer pipeline — finalize, store, then advance HEAD — is
in the commit command, untransacted: when the pipeline succeeds HEAD
reads as the finalized `commit_id`, and when the store step fails the
command surfaces that error with the database state unchanged. -/
theorem repo_store_delegates_pipeline_in_command :
    ∀ (db : scribe_db_t) (env : scribe_envelope_t),
      (∀ envop : Option scribe_envelope_t,
        scribe_repo_store_commit db envop = scribe_db_store_commit db envop) ∧
      ((cmd_commit_store_pipeline db env).1 = .SCRIBE_OK →
        scribe_db_get_ref (cmd_commit_store_pipeline db env).2 "HEAD"
          = (.SCRIBE_OK, (envelope_finalize_impl env).commit_id)) ∧
      ((scribe_db_store_commit db (some (envelope_finalize_impl env))).1 ≠ .SCRIBE_OK →
        cmd_commit_store_pipeline db env
          = ((scribe_db_store_commit db (some (envelope_finalize_impl env))).1, db)) := by
  intro db env
  refine ⟨fun _ => rfl, ?_, ?_⟩
  · intro hok
    cases hbool : (db.commits.any (fun r => r.hash == (envelope_finalize_impl env).commit_id)
        || !commit_insert_ok (envelope_finalize_impl env)) with
    | true =>
      rw [pipeline_store_fail db env hbool] at hok
      simp at hok
    | false =>
      rw [pipeline_store_ok db env hbool]
      dsimp only
      exact get_ref_after_set _ "HEAD" _
  · intro hfail
    cases hbool : (db.commits.any (fun r => r.hash == (envelope_finalize_impl env).commit_id)
        || !commit_insert_ok (envelope_finalize_impl env)) with
    | true =>
      rw [pipeline_store_fail db env hbool]
      rw [store_commit_some_eq, if_pos hbool]
    | false =>
      exfalso
      apply hfail
      rw [store_commit_some_eq, if_neg (by simp [hbool])]

/-- C3 amended witness: at the concrete inputs, the successful pipeline
leaves HEAD at the finalized commit id (discharging the success
hypothesis), and with an envelope whose required columns are NULL the
store step fails and the pipeline surfaces it with the state unchanged
(discharging the failure hypothesis). -/
theorem repo_store_delegates_pipeline_in_command_witness :
    scribe_db_get_ref (cmd_commit_store_pipeline scribe_db_initial sample_envelope).2 "HEAD"
      = (.SCRIBE_OK, (envelope_finalize_impl sample_envelope).commit_id) ∧
    cmd_commit_store_pipeline scribe_db_initial (scribe_envelope_new 0)
      = ((scribe_db_store_commit scribe_db_initial
            (some (envelope_finalize_impl (scribe_envelope_new 0)))).1,
         scribe_db_initial) :=
  ⟨(repo_store_delegates_pipeline_in_command scribe_db_initial sample_envelope).2.1 (by decide),
   (repo_store_delegates_pipeline_in_command scribe_db_initial (scribe_envelope_new 0)).2.2
     (by decide)⟩

end Scribe
